import Mathlib

/-!
Verification development for the vehicle-fitment resolution engine and the
financing calculation engine of the `namwoo_app` battery-commerce service
(`services/product_service.py`).

The embedding models:
* Python strings as Lean `String` / `List Char` (Python `str.lower` is modelled
  by `Char.toLower`, faithful on the ASCII data handled by the service);
* `decimal.Decimal` values as `ℚ`, with `ROUND_HALF_UP` quantization to two
  places modelled exactly (ties away from zero);
* SQL `ILIKE` as full-string pattern matching with `%`/`_` wildcards and
  case-insensitive literal comparison;
* the PostgreSQL `~*` word-boundary regex filter `\y<kw>\y` as a
  case-insensitive word-boundary search;
* the external AI parser, the fuzzy matcher (`thefuzz.process.extractOne`) and
  the alias table (`services/vehicle_aliases.py`, configuration data) as
  parameters of the resolver;
* the database as an in-memory list of fitment rows, with a boolean flag for a
  raising Stage-1 query, and an operation trace recording which repository
  queries a call performs.
-/

namespace Fulgor

/-- Python `str.lower`, modelled character-wise with `Char.toLower`
(faithful on ASCII input). -/
def pyLower (s : String) : String := String.mk (s.toList.map Char.toLower)

/-- Splits a character list at every character satisfying `p`, keeping empty
pieces, like Python `re.split` on a single-character separator class. -/
def splitChars (p : Char → Bool) : List Char → List (List Char)
  | [] => [[]]
  | c :: cs =>
    let r := splitChars p cs
    if p c then [] :: r
    else match r with
      | [] => [[c]]
      | t :: ts => (c :: t) :: ts

/-- String-level wrapper around `splitChars`. -/
def pySplit (p : Char → Bool) (s : String) : List String :=
  (splitChars p s.toList).map (fun l => String.mk l)

/-- Python `str.strip`: removes leading and trailing whitespace. -/
def pyTrim (s : String) : String :=
  String.mk (((s.toList.dropWhile Char.isWhitespace).reverse.dropWhile Char.isWhitespace).reverse)

/-- Python substring containment `sub in s` (case-sensitive). -/
def strContains (s sub : String) : Bool :=
  (List.range (s.toList.length + 1)).any
    (fun i => ((s.toList.drop i).take sub.toList.length) == sub.toList)

/-- Lexicographic comparison of character lists by code point, the order Python
uses to compare strings. -/
def charListLe : List Char → List Char → Bool
  | [], _ => true
  | _ :: _, [] => false
  | a :: as, b :: bs => if a < b then true else if b < a then false else charListLe as bs

/-- Insertion step for ascending string sort. -/
def insertStrAsc (a : String) : List String → List String
  | [] => [a]
  | b :: l => if charListLe a.toList b.toList then a :: b :: l else b :: insertStrAsc a l

/-- Python `sorted` on strings (ascending, lexicographic by code point). -/
def sortStrings (l : List String) : List String := l.foldr insertStrAsc []

/-- Insertion step for the stable length-descending sort. -/
def insertByLenDesc (a : String) : List String → List String
  | [] => [a]
  | b :: l => if b.length ≤ a.length then a :: b :: l else b :: insertByLenDesc a l

/-- Python `sorted(l, key=len, reverse=True)`: stable sort, longest first. -/
def sortByLenDesc (l : List String) : List String := l.foldr insertByLenDesc []

/-- Keeps the first occurrence of each key, preserving order — the behaviour of
inserting into a Python `dict` / guarding with a `seen` set. -/
def dedupByKey {α β : Type} [DecidableEq β] (key : α → β) (l : List α) : List α :=
  l.foldl (fun acc x => if key x ∈ acc.map key then acc else acc ++ [x]) []

/-- Fueled core of SQL `LIKE`/`ILIKE` pattern matching: `%` matches any
sequence, `_` any single character, and literal characters compare
case-insensitively. The fuel only bounds the recursion; `likeMatch` supplies
enough for full evaluation. -/
def likeMatchF : Nat → List Char → List Char → Bool
  | 0, _, _ => false
  | _ + 1, [], cs => cs.isEmpty
  | fuel + 1, p :: ps, cs =>
    if p = '%' then
      likeMatchF fuel ps cs ||
        (match cs with
         | [] => false
         | _ :: cs' => likeMatchF fuel (p :: ps) cs')
    else
      match cs with
      | [] => false
      | c :: cs' => (p = '_' || p.toLower = c.toLower) && likeMatchF fuel ps cs'

/-- SQL `ILIKE` matching of pattern `ps` against the full value `cs`. -/
def likeMatch (ps cs : List Char) : Bool := likeMatchF (ps.length + cs.length + 1) ps cs

/-- Matching of `value ILIKE pattern` on strings, as produced by SQLAlchemy ilike. -/
def likeStr (value pattern : String) : Bool := likeMatch pattern.toList value.toList

/-- Word characters of PostgreSQL `\y` and Python `\b`: alphanumerics and
underscore. -/
def isWordChar (c : Char) : Bool := c.isAlphanum || c = '_'

/-- Whether position `i` of `t` holds a word character (out of range counts as
non-word). -/
def wordAt (t : List Char) (i : Nat) : Bool :=
  match t.get? i with
  | some c => isWordChar c
  | none => false

/-- Word boundary at position `i`: exactly one side of the position is a word
character. -/
def boundaryAt (t : List Char) (i : Nat) : Bool :=
  (if i = 0 then false else wordAt t (i - 1)) != wordAt t i

/-- PostgreSQL `value ~* '\y<kw>\y'`: case-insensitive search for `kw` inside
`value` with word boundaries on both sides (the keyword is regex-escaped in the
source, so it is matched literally). -/
def regexWordMatch (value kw : String) : Bool :=
  let t := (pyLower value).toList
  let k := (pyLower kw).toList
  (List.range (t.length + 1)).any
    (fun i => (((t.drop i).take k.length) == k) && boundaryAt t i && boundaryAt t (i + k.length))

/-- Whether the word-bounded, case-insensitive occurrence of `k` starts at
position `i` of `t`. -/
def matchTermAt (t k : List Char) (i : Nat) : Bool :=
  (((t.drop i).take k.length).map Char.toLower == k.map Char.toLower) &&
    boundaryAt t i && boundaryAt t (i + k.length)

/-- Fueled scanner for `re.sub(r'\b<term>\b', '', s, flags=IGNORECASE)`:
left-to-right, non-overlapping, removing each match. The fuel bounds the scan;
`reSubWB` supplies enough for the whole input. -/
def reSubWBF (k t : List Char) : Nat → Nat → List Char
  | _, 0 => []
  | i, fuel + 1 =>
    if i < t.length then
      if !k.isEmpty && matchTermAt t k i then reSubWBF k t (i + k.length) fuel
      else t.getD i ' ' :: reSubWBF k t (i + 1) fuel
    else []

/-- Python `re.sub(r'\b' + re.escape(term) + r'\b', '', s, flags=IGNORECASE)`. -/
def reSubWB (term : String) (s : String) : String :=
  String.mk (reSubWBF term.toList s.toList 0 (s.toList.length + 1))

/- ## Data model (`models/product.py`) -/

/-- Battery product row (`Product`), restricted to the fields the resolver and
formatters read. Prices are `decimal.Decimal` columns, modelled as `ℚ`. -/
structure Battery where
  id : String
  brand : String
  model_code : String
  warranty_months : Option Int
  price_regular : Option ℚ
  price_discount_fx : Option ℚ
deriving DecidableEq, Repr

/-- Vehicle fitment row (`VehicleBatteryFitment`) together with its linked
battery products (the many-to-many association). -/
structure Fitment where
  fitment_id : Int
  vehicle_make : String
  vehicle_model : String
  year_start : Int
  year_end : Option Int
  engine_details : Option String
  notes : Option String
  compatible_battery_products : List Battery
deriving DecidableEq, Repr

/-- Structured output of the external vehicle-query parser
(`ai_service.parse_vehicle_query_to_structured`); `none` fields model JSON
nulls. A failed or invalid parse is the outer `Option.none`. -/
structure ParsedVehicle where
  make : Option String
  model : Option String
  year : Option Int
  engine_details : Option String
deriving DecidableEq, Repr

/-- Repository operations a call can perform, recorded as a trace. -/
inductive RepoOp where
  | queryDistinctMakes
  | queryFitments (make : Option String) (modelKeywords : List String) (year : Option Int)
  | queryFitmentById (id : Int)
  | queryFitmentsByIds (ids : List Int)
  | queryFinancingRule (provider level : String)
  | writeSession
deriving DecidableEq, Repr

/-- Whether an operation touches the fitment table. -/
def isFitmentQuery : RepoOp → Bool
  | RepoOp.queryFitments _ _ _ => true
  | RepoOp.queryFitmentById _ => true
  | RepoOp.queryFitmentsByIds _ => true
  | _ => false

/-- Whether an operation writes to the session. -/
def isWriteOp : RepoOp → Bool
  | RepoOp.writeSession => true
  | _ => false

/-- Rendered battery entry of a response dictionary. -/
structure BatteryView where
  brand : String
  model_code : String
  warranty_info : String
  price_regular : Option ℚ
  price_discount_fx : Option ℚ
deriving DecidableEq, Repr

/-- Return value of `find_batteries_for_vehicle`. `empty` is the bare `{}`
dictionary the code returns on empty input and on a failed Stage-1 query; the
other constructors carry the `status` discriminator of the source. -/
inductive Result where
  | empty
  | notFound (message : String)
  | success (vehicle_key : String) (batteries : List BatteryView)
  | clarificationNeeded (message : String) (options : List String)
deriving DecidableEq, Repr

/-- Discriminator for `status == "success"`. -/
def isSuccess : Result → Bool
  | Result.success _ _ => true
  | _ => false

/-- Discriminator for `status == "not_found"`. -/
def isNotFound : Result → Bool
  | Result.notFound _ => true
  | _ => false

/-- Discriminator for `status == "clarification_needed"`. -/
def isClarification : Result → Bool
  | Result.clarificationNeeded _ _ => true
  | _ => false

/-- Fitment store plus a flag modelling a Stage-1 query that raises. -/
structure Repo where
  fitments : List Fitment
  stage1Fails : Bool

/-- External collaborators of the resolver: the AI parser, the fuzzy matcher
(`thefuzz.process.extractOne`, returning the best choice with its 0–100 score)
and the `MAKE_ALIASES` table (configuration data, lowercase alias → canonical
make). -/
structure Collaborators where
  parse : String → Option ParsedVehicle
  extractOne : String → List String → Option (String × Nat)
  aliases : List (String × String)

/- ## Resolver (`find_batteries_for_vehicle` and helpers) -/

/-- Python truthiness of an optional string (`None` and `""` are falsy). -/
def strTruthy : Option String → Bool
  | some s => s != ""
  | none => false

/-- Python truthiness of an optional integer (`None` and `0` are falsy). -/
def intTruthy : Option Int → Bool
  | some n => n != 0
  | none => false

/-- Dictionary lookup `aliases.get(key, dflt)` on the alias table. -/
def aliasValue (aliases : List (String × String)) (key dflt : String) : String :=
  match aliases.find? (fun kv => kv.1 == key) with
  | some kv => kv.2
  | none => dflt

/-- Constant `FUZZY_MATCH_CONFIDENCE_THRESHOLD` from `product_service.py`. -/
def FUZZY_MATCH_CONFIDENCE_THRESHOLD : Nat := 85

/-- Distinct-make listing of `_get_all_makes_cached` (modelled uncached): the
distinct stored makes, truthy ones only, sorted longest first. -/
def allMakesOf (fitments : List Fitment) : List String :=
  sortByLenDesc ((dedupByKey id (fitments.map (·.vehicle_make))).filter (fun m => m != ""))

/-- Function `_find_make_from_query`: alias scan (longest alias first, substring match
against the lowercased query), then fuzzy fallback accepted only at or above
the confidence threshold. -/
def find_make_from_query (co : Collaborators) (all_makes : List String)
    (user_query : String) : Option String :=
  match (sortByLenDesc (co.aliases.map (·.1))).find?
      (fun al => strContains (pyLower user_query) al) with
  | some al => some (aliasValue co.aliases al al)
  | none =>
    match co.extractOne (pyLower user_query) all_makes with
    | some (found_make, score) =>
      if FUZZY_MATCH_CONFIDENCE_THRESHOLD ≤ score then some found_make else none
    | none => none

/-- Tier-2 fallback: recover a make, strip its aliases from the query at word
boundaries, re-parse the remainder, and assemble the vehicle data. -/
def tier2Parse (co : Collaborators) (repo : Repo) (user_query : String) :
    Option ParsedVehicle :=
  match find_make_from_query co (allMakesOf repo.fitments) user_query with
  | some found_make =>
    let all_aliases_for_make :=
      ((co.aliases.filter (fun kv => kv.2 == found_make)).map (·.1)) ++ [found_make]
    let remaining_query :=
      (sortByLenDesc all_aliases_for_make).foldl (fun acc term => reSubWB term acc) user_query
    let stripped := pyTrim remaining_query
    match co.parse stripped with
    | some rp =>
      some { make := some found_make, model := rp.model, year := rp.year,
             engine_details := rp.engine_details }
    | none =>
      some { make := some found_make, model := some stripped, year := none,
             engine_details := none }
  | none => none

/-- Tiers 1 and 2 of the resolver: AI parse with alias normalization of the
make, falling back to the data-driven make recovery. Also returns the
repository operations performed (the distinct-makes query of the fallback). -/
def tier12 (co : Collaborators) (repo : Repo) (user_query : String) :
    Option ParsedVehicle × List RepoOp :=
  match co.parse user_query with
  | some p =>
    match p.make with
    | some mk =>
      if mk != "" && strTruthy p.model then
        (some { p with make := some (aliasValue co.aliases (pyLower mk) mk) }, [])
      else (tier2Parse co repo user_query, [RepoOp.queryDistinctMakes])
    | none => (tier2Parse co repo user_query, [RepoOp.queryDistinctMakes])
  | none => (tier2Parse co repo user_query, [RepoOp.queryDistinctMakes])

/-- Stage-1 model keywords: split the parsed model on whitespace and hyphens,
keep pieces longer than one character. -/
def modelKeywords (model : String) : List String :=
  (pySplit (fun c => c.isWhitespace || c = '-') model).filter (fun kw => 1 < kw.length)

/-- Stage-1 make filter: `vehicle_make ILIKE parsed_make` (applied only when
the parsed make is truthy). -/
def makeFilter (pv : ParsedVehicle) (f : Fitment) : Bool :=
  if strTruthy pv.make then likeStr f.vehicle_make (pv.make.getD "") else true

/-- Stage-1 model filter: every keyword must word-boundary-match the stored
model (`and_` over the per-keyword `~*` conditions; no condition when the
keyword list is empty). -/
def modelFilter (pv : ParsedVehicle) (f : Fitment) : Bool :=
  if strTruthy pv.model then
    let kws := modelKeywords (pv.model.getD "")
    if kws.isEmpty then true
    else kws.all (fun kw => regexWordMatch f.vehicle_model kw)
  else true

/-- Stage-1 year filter: `year_start ≤ year` and (`year_end ≥ year` or
`year_end IS NULL`), applied only when the parsed year is truthy. -/
def yearFilter (pv : ParsedVehicle) (f : Fitment) : Bool :=
  if intTruthy pv.year then
    let y := pv.year.getD 0
    decide (f.year_start ≤ y) &&
      (match f.year_end with
       | some ye => decide (y ≤ ye)
       | none => true)
  else true

/-- Conjunction of the Stage-1 filters. -/
def stage1Matches (pv : ParsedVehicle) (f : Fitment) : Bool :=
  makeFilter pv f && modelFilter pv f && yearFilter pv f

/-- Stage-1 repository query: filtered fitments, capped at 10 rows. -/
def stage1Query (repo : Repo) (pv : ParsedVehicle) : List Fitment :=
  (repo.fitments.filter (stage1Matches pv)).take 10

/-- Stage-2 engine keywords: `re.findall(r'\w+', engine_details.lower())`. -/
def engineKeywords (s : String) : List String :=
  (pySplit (fun c => !isWordChar c) (pyLower s)).filter (fun kw => kw != "")

/-- Searchable text of a fitment for Stage 2: the truthy ones among model,
engine details and notes, space-joined and lowercased. -/
def searchableText (f : Fitment) : String :=
  pyLower (String.intercalate " "
    (([some f.vehicle_model, f.engine_details, f.notes].filterMap id).filter (fun s => s != "")))

/-- Stage-2 candidate filter: keep fitments whose searchable text contains all
engine keywords (plain substring containment). -/
def stage2Filtered (pv : ParsedVehicle) (candidates : List Fitment) : List Fitment :=
  candidates.filter (fun f =>
    (engineKeywords (pv.engine_details.getD "")).all (fun kw => strContains (searchableText f) kw))

/-- Stage 2: only with more than one candidate and truthy engine details; if
the filter empties the list, fall back to the unfiltered candidates. -/
def stage2Refine (pv : ParsedVehicle) (candidates : List Fitment) : List Fitment :=
  if candidates.length ≤ 1 then candidates
  else if strTruthy pv.engine_details then
    let filtered := stage2Filtered pv candidates
    if filtered.isEmpty then candidates else filtered
  else candidates

/-- Message of the "vehicle understood but nothing matched" `not_found`. -/
def notFoundInfoMsg : String := "No pudimos encontrar la información para tu vehículo."

/-- Message of the "no make identified" `not_found`. -/
def notDetermineMsg : String := "No pudimos determinar el vehículo que buscas."

/-- Message of the "vehicle found, no batteries registered" `not_found`. -/
def noBatteriesMsg : String :=
  "Encontramos tu vehículo, pero no tenemos baterías compatibles registradas."

/-- Message of the clarification response. -/
def clarificationMsg : String :=
  "Encontré algunas versiones que podrían coincidir. Para darte la batería correcta, por favor selecciona tu vehículo:"

/-- Rendering of `year_end or 'Presente'` (falsy `year_end`, i.e. `None` or
`0`, renders as "Presente"). -/
def yearEndStr : Option Int → String
  | some y => if y = 0 then "Presente" else toString y
  | none => "Presente"

/-- Vehicle key `f"{make} {model} ({year_start}-{year_end or 'Presente'})"`. -/
def vehicleKey (f : Fitment) : String :=
  let mk := f.vehicle_make
  let md := f.vehicle_model
  let ys := f.year_start
  let ye := yearEndStr f.year_end
  s!"{mk} {md} ({ys}-{ye})"

/-- Rendering of one battery as a response entry (warranty months are truthy
or "No especificada"). -/
def batteryView (b : Battery) : BatteryView :=
  { brand := b.brand
    model_code := b.model_code
    warranty_info :=
      match b.warranty_months with
      | some m => if m = 0 then "No especificada" else s!"{m} meses"
      | none => "No especificada"
    price_regular := b.price_regular
    price_discount_fx := b.price_discount_fx }

/-- Option string of `_format_clarification_response`: make, model, optional
truthy engine details, year range. -/
def renderOption (f : Fitment) : String :=
  let mk := f.vehicle_make
  let md := f.vehicle_model
  let ys := f.year_start
  let ye := yearEndStr f.year_end
  let yr := s!"{ys}-{ye}"
  match f.engine_details with
  | some ed => if ed != "" then s!"{mk} {md} {ed} ({yr})" else s!"{mk} {md} ({yr})"
  | none => s!"{mk} {md} ({yr})"

/-- Function `_format_clarification_response`: one option per fitment, deduplicated by
rendered string keeping first occurrences. -/
def formatClarification (fitments : List Fitment) : Result :=
  Result.clarificationNeeded clarificationMsg (dedupByKey id (fitments.map renderOption))

/-- Merged vehicle key of `_format_merged_success_response`: make of the first
fitment, the sorted distinct models joined with " / ", the minimum
`year_start` and the maximum non-null `year_end` (falsy maximum renders as
"Presente"). -/
def mergedVehicleKey (g : Fitment) (rest : List Fitment) : String :=
  let mk := g.vehicle_make
  let model_str := String.intercalate " / "
    (sortStrings (dedupByKey id ((g :: rest).map (·.vehicle_model))))
  let min_year := rest.foldl (fun a f => min a f.year_start) g.year_start
  let max_year : Option Int :=
    match (g :: rest).filterMap (·.year_end) with
    | [] => none
    | y :: ys => some (ys.foldl max y)
  let ye := yearEndStr max_year
  s!"{mk} {model_str} ({min_year}-{ye})"

/-- Function `_format_merged_success_response`: merged key plus the first fitment's
batteries deduplicated by id. -/
def formatMergedSuccess (g : Fitment) (rest : List Fitment) : Result :=
  Result.success (mergedVehicleKey g rest)
    ((dedupByKey (fun b => b.id) g.compatible_battery_products).map batteryView)

/-- Function `_format_success_response`: refetch the fitment (with its batteries) by
primary key; distinct `not_found` when no batteries are linked. -/
def formatSuccess (db : List Fitment) (fitment : Fitment) : Result :=
  match db.find? (fun g => g.fitment_id == fitment.fitment_id) with
  | none => Result.notFound noBatteriesMsg
  | some fwb =>
    if fwb.compatible_battery_products.isEmpty then Result.notFound noBatteriesMsg
    else Result.success (vehicleKey fitment) (fwb.compatible_battery_products.map batteryView)

/-- Refetch of the surviving candidates with their batteries loaded
(`filter(VehicleBatteryFitment.fitment_id.in_(fitment_ids))`). -/
def refetchByIds (db : List Fitment) (final_fitments : List Fitment) : List Fitment :=
  db.filter (fun f => decide (f.fitment_id ∈ final_fitments.map (·.fitment_id)))

/-- The `frozenset` of linked battery ids of a fitment. -/
def batteryIdSet (f : Fitment) : Finset String :=
  (f.compatible_battery_products.map (·.id)).toFinset

/-- Multi-candidate resolution (lines 189–204): refetch the candidates with
their batteries, return the distinct `not_found` when none has batteries,
clarify when the first battery-id set is empty, merge when all battery-id sets
equal the first, otherwise clarify. -/
def handleMultiple (db : List Fitment) (final_fitments : List Fitment) : Result :=
  match refetchByIds db final_fitments with
  | [] => Result.notFound noBatteriesMsg
  | g :: rest =>
    if (g :: rest).all (fun f => f.compatible_battery_products.isEmpty) then
      Result.notFound noBatteriesMsg
    else if batteryIdSet g = ∅ then formatClarification final_fitments
    else if rest.all (fun f => decide (batteryIdSet f = batteryIdSet g)) then
      formatMergedSuccess g rest
    else formatClarification final_fitments

/-- Execution stage of the resolver: Stage-1 query (with its failure mode),
Stage-2 refinement and result resolution. -/
def executionStage (repo : Repo) (pv : ParsedVehicle) : Result :=
  if repo.stage1Fails then Result.empty
  else
    match stage2Refine pv (stage1Query repo pv) with
    | [] => Result.notFound notFoundInfoMsg
    | [f] => formatSuccess repo.fitments f
    | f1 :: f2 :: fs => handleMultiple repo.fitments (f1 :: f2 :: fs)

/-- Repository operations performed by the execution stage. -/
def executionOps (repo : Repo) (pv : ParsedVehicle) : List RepoOp :=
  let op := RepoOp.queryFitments
    (if strTruthy pv.make then pv.make else none)
    (if strTruthy pv.model then modelKeywords (pv.model.getD "") else [])
    (if intTruthy pv.year then pv.year else none)
  if repo.stage1Fails then [op]
  else
    match stage2Refine pv (stage1Query repo pv) with
    | [] => [op]
    | [f] => [op, RepoOp.queryFitmentById f.fitment_id]
    | f1 :: f2 :: fs => [op, RepoOp.queryFitmentsByIds ((f1 :: f2 :: fs).map (·.fitment_id))]

/-- Entry point `find_batteries_for_vehicle`: empty input short-circuits to `{}` with no
repository access; otherwise Tier 1/Tier 2 parsing followed by the execution
stage. Returns the result together with the trace of repository operations. -/
def find_batteries_for_vehicle (co : Collaborators) (repo : Repo) (user_query : String) :
    Result × List RepoOp :=
  if user_query == "" then (Result.empty, [])
  else
    match tier12 co repo user_query with
    | (some pv, ops) => (executionStage repo pv, ops ++ executionOps repo pv)
    | (none, ops) => (Result.notFound notDetermineMsg, ops)

/- ## Financing calculator (`get_cashea_financing_options`) -/

/-- Half-up rounding to two decimal places: `Decimal.quantize(Decimal('0.01'),
rounding=ROUND_HALF_UP)` — ties away from zero. -/
def roundHalfUp2 (x : ℚ) : ℚ :=
  if 0 ≤ x then ((⌊x * 100 + 1 / 2⌋ : ℤ) : ℚ) / 100
  else -(((⌊(-x) * 100 + 1 / 2⌋ : ℤ) : ℚ) / 100)

/-- Modelled from the spec: the `FinancingRule` model class
(`models/financing_rule.py`) is not among the sources; its fields are taken
from the spec's data model and from how `get_cashea_financing_options` and
`update_financing_rules` read them. -/
structure FinancingRule where
  provider : String
  level_name : String
  initial_payment_percentage : ℚ
  installments : Int
  provider_discount_percentage : Option ℚ
deriving DecidableEq, Repr

/-- The `financing_plan` dictionary of a successful calculation. -/
structure FinancingPlan where
  level : String
  initial_payment : ℚ
  installments_count : Int
  installment_amount : ℚ
  total_final_price : ℚ
  discount_applied_percent : ℚ
  total_discount_amount : ℚ
deriving DecidableEq, Repr

/-- Price argument of the calculator. `Decimal(str(product_price))` succeeds on
every float; a non-finite float (`nan`/`inf`) produces a Decimal on which every
later `quantize` raises `InvalidOperation`. -/
inductive PriceInput where
  | finite (q : ℚ)
  | nonfinite
deriving DecidableEq, Repr

/-- Return value of the calculator: the success dictionary (echoing the
original price) or the error dictionary. -/
inductive FinResult where
  | success (original_product_price : PriceInput) (financing_plan : FinancingPlan)
  | error (message : String)
deriving DecidableEq, Repr

/-- Discriminator for a financing error dictionary. -/
def isFinError : FinResult → Bool
  | FinResult.error _ => true
  | _ => false

/-- Financing-rule store plus a flag modelling a raising rule query. -/
structure FinRepo where
  rules : List FinancingRule
  queryFails : Bool

/-- Body of the `try` block of `get_cashea_financing_options`;
`Except.error` models a raised exception. The missing-rule case is an ordinary
return, not an exception. -/
def casheaTryBody (repo : FinRepo) (product_price : PriceInput) (user_level : String)
    (apply_discount : Bool) : Except String FinResult :=
  if repo.queryFails then Except.error "database error during rule query"
  else
    match repo.rules.find? (fun r => r.provider == "Cashea" && r.level_name == user_level) with
    | none =>
      Except.ok (FinResult.error
        ("No se encontró una regla de financiamiento para Cashea Nivel \x27" ++ user_level ++ "\x27."))
    | some rule =>
      match product_price with
      | PriceInput.nonfinite => Except.error "InvalidOperation: quantize of non-finite Decimal"
      | PriceInput.finite price =>
        let useDiscount : Bool := apply_discount &&
          (match rule.provider_discount_percentage with
           | some d => decide (0 < d)
           | none => false)
        let discount_amount : ℚ :=
          if useDiscount then roundHalfUp2 (price * rule.provider_discount_percentage.getD 0)
          else 0
        let base_price_for_financing := price - discount_amount
        let discount_applied_percent : ℚ :=
          if useDiscount then rule.provider_discount_percentage.getD 0 * 100 else 0
        let initial_payment_final :=
          roundHalfUp2 (base_price_for_financing * rule.initial_payment_percentage)
        let remaining_balance := base_price_for_financing - initial_payment_final
        let installment_amount : ℚ :=
          if 0 < rule.installments then
            roundHalfUp2 (remaining_balance / (rule.installments : ℚ))
          else if 0 < remaining_balance then roundHalfUp2 remaining_balance
          else 0
        Except.ok (FinResult.success product_price
          { level := rule.level_name
            initial_payment := initial_payment_final
            installments_count := rule.installments
            installment_amount := installment_amount
            total_final_price := roundHalfUp2 base_price_for_financing
            discount_applied_percent := discount_applied_percent
            total_discount_amount := discount_amount })

/-- Entry point `get_cashea_financing_options`: the `try` body with every exception caught
and converted into the error dictionary. The trace records the single
read-only repository access. -/
def get_cashea_financing_options (repo : FinRepo) (product_price : PriceInput)
    (user_level : String) (apply_discount : Bool) : FinResult × List RepoOp :=
  (match casheaTryBody repo product_price user_level apply_discount with
   | Except.ok r => r
   | Except.error e =>
     FinResult.error ("Error interno del servidor al calcular el financiamiento: " ++ e),
   [RepoOp.queryFinancingRule "Cashea" user_level])

/- ## Helper lemmas -/

lemma likeMatchF_exact : ∀ (fuel : Nat) (ps cs : List Char),
    ps.length + cs.length < fuel →
    (∀ c ∈ ps, c ≠ '%' ∧ c ≠ '_') →
    (likeMatchF fuel ps cs = true ↔ ps.map Char.toLower = cs.map Char.toLower) := by
  intro fuel
  induction fuel with
  | zero => intro ps cs hlen _; omega
  | succ fuel ih =>
    intro ps cs hlen hw
    cases ps with
    | nil =>
      cases cs with
      | nil => simp [likeMatchF]
      | cons c cs' => simp [likeMatchF]
    | cons p ps' =>
      have hp := hw p (by simp)
      cases cs with
      | nil => simp [likeMatchF, hp.1]
      | cons c cs' =>
        have h2 : ∀ x ∈ ps', x ≠ '%' ∧ x ≠ '_' := fun x hx => hw x (by simp [hx])
        have ihh := ih ps' cs' (by simp at hlen ⊢; omega) h2
        simp [likeMatchF, hp.1, hp.2, Bool.and_eq_true, decide_eq_true_eq, ihh]

/-- On a wildcard-free pattern, `ILIKE` is exactly case-insensitive equality. -/
lemma likeStr_exact (value pattern : String)
    (hw : ∀ c ∈ pattern.toList, c ≠ '%' ∧ c ≠ '_') :
    (likeStr value pattern = true ↔ pyLower value = pyLower pattern) := by
  unfold likeStr likeMatch
  rw [likeMatchF_exact _ _ _ (by omega) hw]
  simp only [pyLower]
  constructor
  · intro hEq; exact congrArg String.mk hEq.symm
  · intro hEq
    have hd := congrArg String.data hEq
    exact hd.symm

lemma mem_insertByLenDesc {a x : String} {l : List String} :
    x ∈ insertByLenDesc a l ↔ x = a ∨ x ∈ l := by
  induction l with
  | nil => simp [insertByLenDesc]
  | cons b t ih =>
    by_cases h : b.length ≤ a.length
    · simp [insertByLenDesc, h]
    · simp [insertByLenDesc, h, ih]
      tauto

lemma mem_sortByLenDesc {x : String} {l : List String} :
    x ∈ sortByLenDesc l ↔ x ∈ l := by
  induction l with
  | nil => simp [sortByLenDesc]
  | cons b t ih =>
    simp only [sortByLenDesc, List.foldr_cons] at *
    rw [mem_insertByLenDesc, ih, List.mem_cons]

lemma stage1Query_matches {repo : Repo} {pv : ParsedVehicle} {f : Fitment}
    (hf : f ∈ stage1Query repo pv) : stage1Matches pv f = true := by
  unfold stage1Query at hf
  exact List.of_mem_filter (List.take_subset 10 _ hf)

lemma stage1Query_sublist (repo : Repo) (pv : ParsedVehicle) :
    List.Sublist (stage1Query repo pv) repo.fitments :=
  (List.take_sublist _ _).trans (List.filter_sublist _)

lemma stage2Refine_sublist (pv : ParsedVehicle) (c : List Fitment) :
    List.Sublist (stage2Refine pv c) c := by
  unfold stage2Refine
  split
  · exact List.Sublist.refl c
  · split
    · dsimp only
      split
      · exact List.Sublist.refl c
      · exact List.filter_sublist c
    · exact List.Sublist.refl c

lemma stage2Refine_mem {pv : ParsedVehicle} {c : List Fitment} {f : Fitment}
    (hf : f ∈ stage2Refine pv c) : f ∈ c :=
  (stage2Refine_sublist pv c).subset hf

lemma filter_key_mem_eq {α β : Type} [DecidableEq β] (key : α → β) :
    ∀ (db s : List α), (db.map key).Nodup → List.Sublist s db →
    db.filter (fun x => decide (key x ∈ s.map key)) = s := by
  intro db
  induction db with
  | nil =>
    intro s _ hs
    rw [List.sublist_nil.mp hs]
    simp
  | cons a l ih =>
    intro s hnd hs
    rw [List.map_cons, List.nodup_cons] at hnd
    cases hs with
    | cons _ hs' =>
      have ha : key a ∉ s.map key := fun hmem =>
        hnd.1 ((hs'.map key).subset hmem)
      simp only [List.filter_cons, decide_eq_true_eq]
      rw [if_neg (by simpa using ha)]
      exact ih s hnd.2 hs'
    | @cons₂ s' _ _ hs' =>
      have hpa : key a ∈ (a :: s').map key := by simp
      simp only [List.filter_cons, decide_eq_true_eq]
      rw [if_pos hpa]
      have hcong : l.filter (fun x => decide (key x ∈ (a :: s').map key))
          = l.filter (fun x => decide (key x ∈ s'.map key)) := by
        apply List.filter_congr
        intro x hx
        have hxa : key x ≠ key a := fun hEq => hnd.1 (hEq ▸ List.mem_map_of_mem key hx)
        simp [hxa]
      rw [hcong, ih s' hnd.2 hs']

lemma refetchByIds_eq {db finals : List Fitment}
    (hnd : (db.map (·.fitment_id)).Nodup) (hsub : List.Sublist finals db) :
    refetchByIds db finals = finals := by
  unfold refetchByIds
  exact filter_key_mem_eq _ db finals hnd hsub

lemma aliasValue_of_mem {aliases : List (String × String)} {k : String} (d : String)
    (hk : k ∈ aliases.map (·.1)) :
    ∃ kv ∈ aliases, aliasValue aliases k d = kv.2 := by
  unfold aliasValue
  have hex : ∃ kv, kv ∈ aliases ∧ (kv.1 == k) = true := by
    obtain ⟨kv, hkv, hfst⟩ := List.mem_map.mp hk
    exact ⟨kv, hkv, by simp [hfst]⟩
  cases h : aliases.find? (fun kv => kv.1 == k) with
  | none =>
    exfalso
    have := List.find?_isSome.mpr hex
    rw [h] at this
    simp at this
  | some kv => exact ⟨kv, List.mem_of_find?_eq_some h, rfl⟩

lemma aliasValue_mem_or (aliases : List (String × String)) (k d : String) :
    (∃ kv ∈ aliases, aliasValue aliases k d = kv.2) ∨ aliasValue aliases k d = d := by
  unfold aliasValue
  cases h : aliases.find? (fun kv => kv.1 == k) with
  | none => right; rfl
  | some kv => left; exact ⟨kv, List.mem_of_find?_eq_some h, rfl⟩

lemma allMakesOf_ne_empty {fitments : List Fitment} {m : String}
    (hm : m ∈ allMakesOf fitments) : m ≠ "" := by
  unfold allMakesOf at hm
  rw [mem_sortByLenDesc] at hm
  have hne := List.of_mem_filter hm
  intro hEq
  rw [hEq] at hne
  exact Bool.false_ne_true hne

lemma find_make_ne_empty {co : Collaborators} {q m : String} {fitments : List Fitment}
    (hvals : ∀ kv ∈ co.aliases, kv.2 ≠ "")
    (hext : ∀ ql choices mk s, co.extractOne ql choices = some (mk, s) → mk ∈ choices)
    (h : find_make_from_query co (allMakesOf fitments) q = some m) : m ≠ "" := by
  unfold find_make_from_query at h
  cases hal : ((sortByLenDesc (co.aliases.map (·.1))).find?
      (fun al => strContains (pyLower q) al)) with
  | some al =>
    rw [hal] at h
    dsimp only at h
    have hmem : al ∈ co.aliases.map (·.1) :=
      mem_sortByLenDesc.mp (List.mem_of_find?_eq_some hal)
    obtain ⟨kv, hkv, hv⟩ := aliasValue_of_mem al hmem
    have hm2 : m = kv.2 := by rw [← hv]; exact (Option.some.injEq _ _).mp h.symm
    rw [hm2]
    exact hvals kv hkv
  | none =>
    rw [hal] at h
    dsimp only at h
    cases hfz : co.extractOne (pyLower q) (allMakesOf fitments) with
    | none => rw [hfz] at h; cases h
    | some pr =>
      rw [hfz] at h
      obtain ⟨mk, s⟩ := pr
      dsimp only at h
      by_cases hs : FUZZY_MATCH_CONFIDENCE_THRESHOLD ≤ s
      · rw [if_pos hs] at h
        have hmk : m = mk := (Option.some.injEq _ _).mp h.symm
        exact hmk ▸ allMakesOf_ne_empty (hext _ _ _ _ hfz)
      · rw [if_neg hs] at h; cases h

lemma tier2Parse_make {co : Collaborators} {repo : Repo} {q : String} {pv : ParsedVehicle}
    (h : tier2Parse co repo q = some pv) :
    ∃ m, find_make_from_query co (allMakesOf repo.fitments) q = some m ∧ pv.make = some m := by
  unfold tier2Parse at h
  cases hfm : find_make_from_query co (allMakesOf repo.fitments) q with
  | none => rw [hfm] at h; cases h
  | some fm =>
    rw [hfm] at h
    refine ⟨fm, rfl, ?_⟩
    dsimp only at h
    split at h <;> simp only [Option.some.injEq] at h <;> exact h ▸ rfl

lemma tier12_make_truthy {co : Collaborators} {repo : Repo} {q : String} {pv : ParsedVehicle}
    (hvals : ∀ kv ∈ co.aliases, kv.2 ≠ "")
    (hext : ∀ ql choices mk s, co.extractOne ql choices = some (mk, s) → mk ∈ choices)
    (h : (tier12 co repo q).1 = some pv) :
    ∃ m, pv.make = some m ∧ m ≠ "" := by
  unfold tier12 at h
  cases hp : co.parse q with
  | none =>
    rw [hp] at h
    dsimp only at h
    obtain ⟨m, hfm, hpv⟩ := tier2Parse_make h
    exact ⟨m, hpv, find_make_ne_empty hvals hext hfm⟩
  | some p =>
    rw [hp] at h
    dsimp only at h
    cases hmk : p.make with
    | none =>
      rw [hmk] at h
      dsimp only at h
      obtain ⟨m, hfm, hpv⟩ := tier2Parse_make h
      exact ⟨m, hpv, find_make_ne_empty hvals hext hfm⟩
    | some mk =>
      rw [hmk] at h
      dsimp only at h
      by_cases hc : (mk != "" && strTruthy p.model) = true
      · rw [if_pos hc] at h
        simp only [Option.some.injEq] at h
        refine ⟨aliasValue co.aliases (pyLower mk) mk, by rw [← h], ?_⟩
        rcases aliasValue_mem_or co.aliases (pyLower mk) mk with ⟨kv, hkv, hv⟩ | hv
        · rw [hv]; exact hvals kv hkv
        · rw [hv]
          have := (Bool.and_eq_true _ _).mp hc
          simpa using this.1
      · rw [if_neg hc] at h
        obtain ⟨m, hfm, hpv⟩ := tier2Parse_make h
        exact ⟨m, hpv, find_make_ne_empty hvals hext hfm⟩

lemma tier12_ops (co : Collaborators) (repo : Repo) (q : String) :
    (tier12 co repo q).2 = [] ∨ (tier12 co repo q).2 = [RepoOp.queryDistinctMakes] := by
  unfold tier12
  cases co.parse q with
  | none => right; rfl
  | some p =>
    dsimp only
    cases p.make with
    | none => right; rfl
    | some mk =>
      dsimp only
      by_cases hc : (mk != "" && strTruthy p.model) = true
      · rw [if_pos hc]; left; rfl
      · rw [if_neg hc]; right; rfl

lemma mem_executionOps {repo : Repo} {pv : ParsedVehicle} {op : RepoOp}
    (h : op ∈ executionOps repo pv) :
    op = RepoOp.queryFitments
        (if strTruthy pv.make then pv.make else none)
        (if strTruthy pv.model then modelKeywords (pv.model.getD "") else [])
        (if intTruthy pv.year then pv.year else none) ∨
    (∃ i, op = RepoOp.queryFitmentById i) ∨
    (∃ ids, op = RepoOp.queryFitmentsByIds ids) := by
  unfold executionOps at h
  by_cases hfail : repo.stage1Fails = true
  · rw [if_pos hfail] at h
    simp only [List.mem_singleton] at h
    left; exact h
  · rw [if_neg hfail] at h
    cases hs : stage2Refine pv (stage1Query repo pv) with
    | nil =>
      rw [hs] at h
      simp only [List.mem_singleton] at h
      left; exact h
    | cons f1 rest =>
      cases rest with
      | nil =>
        rw [hs] at h
        simp only [List.mem_cons, List.mem_singleton, List.not_mem_nil, or_false] at h
        rcases h with h | h
        · left; exact h
        · right; left; exact ⟨_, h⟩
      | cons f2 fs =>
        rw [hs] at h
        simp only [List.mem_cons, List.mem_singleton, List.not_mem_nil, or_false] at h
        rcases h with h | h
        · left; exact h
        · right; right; exact ⟨_, h⟩

/- ## Claims -/

/-- C6 counterexample: on the empty query the resolver returns the bare `{}`
dictionary (`Result.empty`), which is not a `not_found` result; no repository
operation is performed. -/
theorem c6_counterexample :
    (find_batteries_for_vehicle ⟨fun _ => none, fun _ _ => none, []⟩ ⟨[], false⟩ "").1
        = Result.empty ∧
    isNotFound (find_batteries_for_vehicle ⟨fun _ => none, fun _ _ => none, []⟩ ⟨[], false⟩ "").1
        = false ∧
    (find_batteries_for_vehicle ⟨fun _ => none, fun _ _ => none, []⟩ ⟨[], false⟩ "").2 = [] := by
  exact ⟨rfl, rfl, rfl⟩

/-- C6 (corrected): calling the resolver with the empty string short-circuits
to the bare empty dictionary — carrying no `status` at all, rather than a
`not_found` result — and the repository is never touched (empty trace). -/
theorem c6_empty_query (co : Collaborators) (repo : Repo) :
    find_batteries_for_vehicle co repo "" = (Result.empty, []) := rfl

/-- C9 (confirmed): when the Stage-1 repository query raises, the resolver
catches at its boundary and returns the generic empty-dictionary failure: the
outcome is not a success, not a clarification and not a `not_found` — no other
tier is consulted and no normal result is fabricated. -/
theorem c9_repo_failure_surfaces (co : Collaborators) (repo : Repo) (q : String)
    (pv : ParsedVehicle) (hq : q ≠ "") (hfail : repo.stage1Fails = true)
    (hpv : (tier12 co repo q).1 = some pv) :
    (find_batteries_for_vehicle co repo q).1 = Result.empty ∧
    isSuccess (find_batteries_for_vehicle co repo q).1 = false ∧
    isClarification (find_batteries_for_vehicle co repo q).1 = false ∧
    isNotFound (find_batteries_for_vehicle co repo q).1 = false := by
  have hqb : (q == "") = false := beq_eq_false_iff_ne.mpr hq
  have hmain : (find_batteries_for_vehicle co repo q).1 = Result.empty := by
    unfold find_batteries_for_vehicle
    simp only [hqb, Bool.false_eq_true, if_false]
    rcases ht : tier12 co repo q with ⟨o, ops⟩
    rw [ht] at hpv
    dsimp only at hpv
    subst hpv
    dsimp only
    unfold executionStage
    rw [if_pos hfail]
  exact ⟨hmain, by rw [hmain]; rfl, by rw [hmain]; rfl, by rw [hmain]; rfl⟩

/-- C9 witness: a concrete run in which Tier 1 parses the vehicle and the
Stage-1 query fails. -/
theorem c9_witness :
    (find_batteries_for_vehicle
        ⟨fun _ => some ⟨some "HONDA", some "civic", none, none⟩, fun _ _ => none, []⟩
        ⟨[], true⟩ "honda civic").1 = Result.empty ∧
    isSuccess (find_batteries_for_vehicle
        ⟨fun _ => some ⟨some "HONDA", some "civic", none, none⟩, fun _ _ => none, []⟩
        ⟨[], true⟩ "honda civic").1 = false ∧
    isClarification (find_batteries_for_vehicle
        ⟨fun _ => some ⟨some "HONDA", some "civic", none, none⟩, fun _ _ => none, []⟩
        ⟨[], true⟩ "honda civic").1 = false ∧
    isNotFound (find_batteries_for_vehicle
        ⟨fun _ => some ⟨some "HONDA", some "civic", none, none⟩, fun _ _ => none, []⟩
        ⟨[], true⟩ "honda civic").1 = false :=
  c9_repo_failure_surfaces _ _ "honda civic" ⟨some "HONDA", some "civic", none, none⟩
    (by decide) rfl (by decide)

/-- C5 (confirmed): Stage 2 never turns a non-empty candidate set into an empty
one; whenever the engine-keyword filter would eliminate every candidate, the
resolver proceeds with the original Stage-1 candidate set. -/
theorem c5_stage2_nondestructive (pv : ParsedVehicle) (candidates : List Fitment)
    (hne : candidates ≠ []) :
    stage2Refine pv candidates ≠ [] ∧
    (stage2Filtered pv candidates = [] → stage2Refine pv candidates = candidates) := by
  constructor
  · intro hcontra
    unfold stage2Refine at hcontra
    split at hcontra
    · exact hne hcontra
    · split at hcontra
      · dsimp only at hcontra
        split at hcontra
        · exact hne hcontra
        · next hflt =>
          rw [hcontra] at hflt
          simp at hflt
      · exact hne hcontra
  · intro hflt
    unfold stage2Refine
    split
    · rfl
    · split
      · dsimp only
        rw [hflt]
        rfl
      · rfl

/-- C5 witness: two candidates whose searchable texts lack the engine keyword,
so the filter would empty the set and the original candidates survive. -/
theorem c5_witness :
    stage2Refine ⟨some "FORD", some "fiesta", none, some "GLX"⟩
        [⟨1, "FORD", "FIESTA POWER", 2000, some 2005, none, none, []⟩,
         ⟨2, "FORD", "FIESTA MOVE", 2006, some 2010, none, none, []⟩] ≠ [] ∧
    (stage2Filtered ⟨some "FORD", some "fiesta", none, some "GLX"⟩
        [⟨1, "FORD", "FIESTA POWER", 2000, some 2005, none, none, []⟩,
         ⟨2, "FORD", "FIESTA MOVE", 2006, some 2010, none, none, []⟩] = [] →
      stage2Refine ⟨some "FORD", some "fiesta", none, some "GLX"⟩
        [⟨1, "FORD", "FIESTA POWER", 2000, some 2005, none, none, []⟩,
         ⟨2, "FORD", "FIESTA MOVE", 2006, some 2010, none, none, []⟩] =
        [⟨1, "FORD", "FIESTA POWER", 2000, some 2005, none, none, []⟩,
         ⟨2, "FORD", "FIESTA MOVE", 2006, some 2010, none, none, []⟩]) :=
  c5_stage2_nondestructive _ _ (by decide)

/-- C2 counterexample: the parsed model "fiesta max" splits into the keywords
"fiesta" and "max"; the stored model "FIESTA" contains the keyword "fiesta"
under word-boundary matching — so under the claimed ANY (OR) semantics the
fitment would pass — yet the fitment fails the Stage-1 filter (the make and
year components pass; the model component demands every keyword). -/
theorem c2_counterexample :
    modelKeywords "fiesta max" = ["fiesta", "max"] ∧
    regexWordMatch "FIESTA" "fiesta" = true ∧
    makeFilter ⟨some "FORD", some "fiesta max", none, none⟩
        ⟨1, "FORD", "FIESTA", 2000, none, none, none, []⟩ = true ∧
    yearFilter ⟨some "FORD", some "fiesta max", none, none⟩
        ⟨1, "FORD", "FIESTA", 2000, none, none, none, []⟩ = true ∧
    stage1Matches ⟨some "FORD", some "fiesta max", none, none⟩
        ⟨1, "FORD", "FIESTA", 2000, none, none, none, []⟩ = false := by
  exact ⟨by decide, by decide, by decide, by decide, by decide⟩

/-- C2 (corrected): Stage-1 model filtering splits the parsed model on
whitespace and hyphens into keywords of length > 1 and requires the stored
model to word-boundary-match ALL of them (AND semantics, not the claimed OR):
every fitment returned by the Stage-1 query matches every keyword. Word
boundaries still prevent substring false positives ("34" does not match inside
"1341100"). -/
theorem c2_model_filter_conjunctive (repo : Repo) (pv : ParsedVehicle) (model : String)
    (hm : pv.model = some model) (hne : model ≠ "") :
    (∀ f ∈ stage1Query repo pv, ∀ kw ∈ modelKeywords model,
        regexWordMatch f.vehicle_model kw = true) ∧
    regexWordMatch "1341100" "34" = false := by
  constructor
  · intro f hf kw hkw
    have hmatch := stage1Query_matches hf
    unfold stage1Matches at hmatch
    simp only [Bool.and_eq_true] at hmatch
    have hmodel := hmatch.1.2
    unfold modelFilter at hmodel
    have hts : strTruthy pv.model = true := by rw [hm]; simp [strTruthy, hne]
    rw [if_pos hts] at hmodel
    have hgd : pv.model.getD "" = model := by rw [hm]; rfl
    rw [hgd] at hmodel
    dsimp only at hmodel
    by_cases hemp : (modelKeywords model).isEmpty = true
    · rw [List.isEmpty_iff] at hemp
      rw [hemp] at hkw
      cases hkw
    · rw [if_neg hemp] at hmodel
      exact List.all_eq_true.mp hmodel kw hkw
  · decide

/-- C2 witness: a fitment returned for the parsed model "fiesta max" matches
both keywords. -/
theorem c2_witness :
    (∀ f ∈ stage1Query ⟨[⟨1, "FORD", "FIESTA MAX", 2000, none, none, none, []⟩], false⟩
        ⟨some "FORD", some "fiesta max", none, none⟩,
      ∀ kw ∈ modelKeywords "fiesta max", regexWordMatch f.vehicle_model kw = true) ∧
    regexWordMatch "1341100" "34" = false :=
  c2_model_filter_conjunctive ⟨[⟨1, "FORD", "FIESTA MAX", 2000, none, none, none, []⟩], false⟩
    ⟨some "FORD", some "fiesta max", none, none⟩ "fiesta max" rfl (by decide)

/-- Wildcard-free strings: no SQL LIKE metacharacter. -/
def noWildcards (s : String) : Prop := ∀ c ∈ s.toList, c ≠ '%' ∧ c ≠ '_'

instance (s : String) : Decidable (noWildcards s) := by
  unfold noWildcards
  infer_instance

/-- C1 counterexample: the make filter is `ILIKE`, whose `%` wildcard defeats
the guardrail. With the parser yielding make "%" and model "civic", the
resolver settles on make "%" and returns a fitment whose stored make is
"HONDA" — not case-insensitively equal to "%". -/
theorem c1_counterexample :
    (tier12 ⟨fun _ => some ⟨some "%", some "civic", none, none⟩, fun _ _ => none, []⟩
        ⟨[⟨1, "HONDA", "CIVIC", 2000, some 2005, none, none,
           [⟨"b1", "FULGOR", "NS40", none, none, none⟩]⟩], false⟩ "a civic").1
      = some ⟨some "%", some "civic", none, none⟩ ∧
    (find_batteries_for_vehicle
        ⟨fun _ => some ⟨some "%", some "civic", none, none⟩, fun _ _ => none, []⟩
        ⟨[⟨1, "HONDA", "CIVIC", 2000, some 2005, none, none,
           [⟨"b1", "FULGOR", "NS40", none, none, none⟩]⟩], false⟩ "a civic").1
      = Result.success "HONDA CIVIC (2000-2005)"
          [⟨"FULGOR", "NS40", "No especificada", none, none⟩] ∧
    pyLower "HONDA" ≠ pyLower "%" := by
  exact ⟨by decide, by decide, by decide⟩

/-- C1 (corrected): the make guardrail holds for every settled make that
contains no SQL LIKE wildcard (`%`/`_`): whichever tier settled on make M,
every fitment in the Stage-1 result, in the Stage-2 refinement and in the
refetched multi-candidate group has a stored make case-insensitively equal to
M (the distinct-primary-key hypothesis reflects the table's primary key). The
success, merged and clarification responses are rendered from exactly these
lists. -/
theorem c1_make_guardrail (co : Collaborators) (repo : Repo) (q M : String)
    (pv : ParsedVehicle)
    (_hset : (tier12 co repo q).1 = some pv)
    (hM : pv.make = some M) (hMne : M ≠ "") (hw : noWildcards M)
    (hnd : (repo.fitments.map (·.fitment_id)).Nodup) :
    (∀ f ∈ stage1Query repo pv, pyLower f.vehicle_make = pyLower M) ∧
    (∀ f ∈ stage2Refine pv (stage1Query repo pv), pyLower f.vehicle_make = pyLower M) ∧
    (∀ f ∈ refetchByIds repo.fitments (stage2Refine pv (stage1Query repo pv)),
        pyLower f.vehicle_make = pyLower M) := by
  have hstage1 : ∀ f ∈ stage1Query repo pv, pyLower f.vehicle_make = pyLower M := by
    intro f hf
    have hmatch := stage1Query_matches hf
    unfold stage1Matches at hmatch
    simp only [Bool.and_eq_true] at hmatch
    have hmake := hmatch.1.1
    unfold makeFilter at hmake
    have hts : strTruthy pv.make = true := by rw [hM]; simp [strTruthy, hMne]
    rw [if_pos hts] at hmake
    have hgd : pv.make.getD "" = M := by rw [hM]; rfl
    rw [hgd] at hmake
    exact (likeStr_exact f.vehicle_make M hw).mp hmake
  have hfin : List.Sublist (stage2Refine pv (stage1Query repo pv)) repo.fitments :=
    (stage2Refine_sublist _ _).trans (stage1Query_sublist repo pv)
  refine ⟨hstage1, fun f hf => hstage1 f (stage2Refine_mem hf), ?_⟩
  rw [refetchByIds_eq hnd hfin]
  exact fun f hf => hstage1 f (stage2Refine_mem hf)

/-- C1 witness: a Tier-1 run whose alias-normalized make is "HONDA"
(wildcard-free); every list the response is rendered from carries only
case-insensitive "HONDA" makes. -/
theorem c1_witness :
    (∀ f ∈ stage1Query ⟨[⟨1, "HONDA", "CIVIC", 2000, some 2005, none, none, []⟩], false⟩
        ⟨some "HONDA", some "civic", none, none⟩,
      pyLower f.vehicle_make = pyLower "HONDA") ∧
    (∀ f ∈ stage2Refine ⟨some "HONDA", some "civic", none, none⟩
        (stage1Query ⟨[⟨1, "HONDA", "CIVIC", 2000, some 2005, none, none, []⟩], false⟩
          ⟨some "HONDA", some "civic", none, none⟩),
      pyLower f.vehicle_make = pyLower "HONDA") ∧
    (∀ f ∈ refetchByIds [⟨1, "HONDA", "CIVIC", 2000, some 2005, none, none, []⟩]
        (stage2Refine ⟨some "HONDA", some "civic", none, none⟩
          (stage1Query ⟨[⟨1, "HONDA", "CIVIC", 2000, some 2005, none, none, []⟩], false⟩
            ⟨some "HONDA", some "civic", none, none⟩)),
      pyLower f.vehicle_make = pyLower "HONDA") :=
  c1_make_guardrail
    ⟨fun _ => some ⟨some "Honda", some "civic", none, none⟩, fun _ _ => none,
      [("honda", "HONDA")]⟩
    ⟨[⟨1, "HONDA", "CIVIC", 2000, some 2005, none, none, []⟩], false⟩
    "honda civic" "HONDA" ⟨some "HONDA", some "civic", none, none⟩
    (by decide) rfl (by decide) (by decide) (by decide)

/-- C7 (confirmed): with no alias hit, the fuzzy fallback accepts the best
candidate exactly when its score reaches the fixed threshold 85; at score 84
(and a failing Tier-1 parse) the whole resolution is the "could not determine
the vehicle" `not_found`. -/
theorem c7_fuzzy_threshold (co : Collaborators) (repo : Repo) (q mk : String) (s : Nat)
    (hq : q ≠ "")
    (hparse : co.parse q = none)
    (halias : ∀ al ∈ co.aliases.map (·.1), strContains (pyLower q) al = false)
    (hext : co.extractOne (pyLower q) (allMakesOf repo.fitments) = some (mk, s)) :
    FUZZY_MATCH_CONFIDENCE_THRESHOLD = 85 ∧
    (find_make_from_query co (allMakesOf repo.fitments) q = some mk ↔ 85 ≤ s) ∧
    (s = 84 → (find_batteries_for_vehicle co repo q).1 = Result.notFound notDetermineMsg) := by
  have hfind : (sortByLenDesc (co.aliases.map (·.1))).find?
      (fun al => strContains (pyLower q) al) = none := by
    apply List.find?_eq_none.mpr
    intro al hal
    have hal' := halias al (mem_sortByLenDesc.mp hal)
    simp [hal']
  have hfm : find_make_from_query co (allMakesOf repo.fitments) q
      = if 85 ≤ s then some mk else none := by
    unfold find_make_from_query
    rw [hfind]
    dsimp only
    rw [hext]
    dsimp only
    rfl
  refine ⟨rfl, ?_, ?_⟩
  · rw [hfm]
    by_cases hs : 85 ≤ s
    · simp [hs]
    · simp [hs]
  · intro hs84
    have hno : find_make_from_query co (allMakesOf repo.fitments) q = none := by
      rw [hfm, hs84]
      norm_num
    have ht2 : tier2Parse co repo q = none := by
      unfold tier2Parse
      rw [hno]
    have ht12 : tier12 co repo q = (none, [RepoOp.queryDistinctMakes]) := by
      unfold tier12
      rw [hparse]
      dsimp only
      rw [ht2]
    have hqb : (q == "") = false := beq_eq_false_iff_ne.mpr hq
    unfold find_batteries_for_vehicle
    simp only [hqb, Bool.false_eq_true, if_false]
    rw [ht12]

/-- C7 witness: score 84 with a failing parse and an empty alias table yields
rejection and the overall `not_found`. -/
theorem c7_witness :
    FUZZY_MATCH_CONFIDENCE_THRESHOLD = 85 ∧
    (find_make_from_query ⟨fun _ => none, fun _ _ => some ("HONDA", 84), []⟩
        (allMakesOf [⟨1, "HONDA", "CIVIC", 2000, none, none, none, []⟩]) "honda akkord"
      = some "HONDA" ↔ 85 ≤ 84) ∧
    (84 = 84 →
      (find_batteries_for_vehicle ⟨fun _ => none, fun _ _ => some ("HONDA", 84), []⟩
          ⟨[⟨1, "HONDA", "CIVIC", 2000, none, none, none, []⟩], false⟩ "honda akkord").1
        = Result.notFound notDetermineMsg) :=
  c7_fuzzy_threshold ⟨fun _ => none, fun _ _ => some ("HONDA", 84), []⟩
    ⟨[⟨1, "HONDA", "CIVIC", 2000, none, none, none, []⟩], false⟩ "honda akkord" "HONDA" 84
    (by decide) rfl (by decide) rfl

/-- C8 (confirmed): when neither tier recovers a make the resolver stops with
the "could not determine the vehicle" `not_found` and its trace holds no
fitment-table query; moreover on every execution path, each fitment query
carries a non-empty make filter (given that the alias table maps to non-empty
canonical makes and that the fuzzy matcher returns one of its choices). -/
theorem c8_no_make_hard_stop (co : Collaborators) (repo : Repo) (q : String)
    (hq : q ≠ "")
    (hvals : ∀ kv ∈ co.aliases, kv.2 ≠ "")
    (hext : ∀ ql choices mk s, co.extractOne ql choices = some (mk, s) → mk ∈ choices) :
    ((tier12 co repo q).1 = none →
      (find_batteries_for_vehicle co repo q).1 = Result.notFound notDetermineMsg ∧
      ∀ op ∈ (find_batteries_for_vehicle co repo q).2, isFitmentQuery op = false) ∧
    (∀ op ∈ (find_batteries_for_vehicle co repo q).2, ∀ mk kws yr,
      op = RepoOp.queryFitments mk kws yr → ∃ m, mk = some m ∧ m ≠ "") := by
  have hqb : (q == "") = false := beq_eq_false_iff_ne.mpr hq
  rcases ht : tier12 co repo q with ⟨o, ops⟩
  have hops := tier12_ops co repo q
  rw [ht] at hops
  dsimp only at hops
  constructor
  · intro hnone
    have ho : o = none := hnone
    subst ho
    have hfb : find_batteries_for_vehicle co repo q = (Result.notFound notDetermineMsg, ops) := by
      unfold find_batteries_for_vehicle
      simp only [hqb, Bool.false_eq_true, if_false]
      rw [ht]
    rw [hfb]
    refine ⟨rfl, ?_⟩
    intro op hop
    dsimp only at hop
    rcases hops with h | h
    · rw [h] at hop; cases hop
    · rw [h] at hop
      simp only [List.mem_singleton] at hop
      rw [hop]
      rfl
  · intro op hop mk kws yr hopEq
    cases o with
    | none =>
      have hfb : find_batteries_for_vehicle co repo q
          = (Result.notFound notDetermineMsg, ops) := by
        unfold find_batteries_for_vehicle
        simp only [hqb, Bool.false_eq_true, if_false]
        rw [ht]
      rw [hfb] at hop
      dsimp only at hop
      rcases hops with h | h
      · rw [h] at hop; cases hop
      · rw [h] at hop
        simp only [List.mem_singleton] at hop
        rw [hop] at hopEq
        cases hopEq
    | some pv =>
      have hfb : find_batteries_for_vehicle co repo q
          = (executionStage repo pv, ops ++ executionOps repo pv) := by
        unfold find_batteries_for_vehicle
        simp only [hqb, Bool.false_eq_true, if_false]
        rw [ht]
      rw [hfb] at hop
      dsimp only at hop
      rw [List.mem_append] at hop
      rcases hop with hop | hop
      · rcases hops with h | h
        · rw [h] at hop; cases hop
        · rw [h] at hop
          simp only [List.mem_singleton] at hop
          rw [hop] at hopEq
          cases hopEq
      · obtain ⟨m, hm, hmne⟩ := tier12_make_truthy hvals hext (by rw [ht])
        have hts : strTruthy pv.make = true := by rw [hm]; simp [strTruthy, hmne]
        rcases mem_executionOps hop with h | ⟨i, h⟩ | ⟨ids, h⟩
        · have hcomp := h.symm.trans hopEq
          injection hcomp with h1 h2 h3
          refine ⟨m, ?_, hmne⟩
          rw [← h1, if_pos hts, hm]
        · exact absurd (h.symm.trans hopEq) (by intro hbad; cases hbad)
        · exact absurd (h.symm.trans hopEq) (by intro hbad; cases hbad)

/-- C8 witness: a run in which the parse fails and the fuzzy matcher offers
nothing — the result is the hard-stop `not_found` with only the distinct-makes
lookup in the trace. -/
theorem c8_witness :
    ((tier12 ⟨fun _ => none, fun _ _ => none, [("chevy", "CHEVROLET")]⟩
        ⟨[⟨1, "CHEVROLET", "AVEO", 2005, none, none, none, []⟩], false⟩ "un auto").1 = none →
      (find_batteries_for_vehicle ⟨fun _ => none, fun _ _ => none, [("chevy", "CHEVROLET")]⟩
          ⟨[⟨1, "CHEVROLET", "AVEO", 2005, none, none, none, []⟩], false⟩ "un auto").1
        = Result.notFound notDetermineMsg ∧
      ∀ op ∈ (find_batteries_for_vehicle ⟨fun _ => none, fun _ _ => none, [("chevy", "CHEVROLET")]⟩
          ⟨[⟨1, "CHEVROLET", "AVEO", 2005, none, none, none, []⟩], false⟩ "un auto").2,
        isFitmentQuery op = false) ∧
    (∀ op ∈ (find_batteries_for_vehicle ⟨fun _ => none, fun _ _ => none, [("chevy", "CHEVROLET")]⟩
        ⟨[⟨1, "CHEVROLET", "AVEO", 2005, none, none, none, []⟩], false⟩ "un auto").2,
      ∀ mk kws yr, op = RepoOp.queryFitments mk kws yr → ∃ m, mk = some m ∧ m ≠ "") :=
  c8_no_make_hard_stop ⟨fun _ => none, fun _ _ => none, [("chevy", "CHEVROLET")]⟩
    ⟨[⟨1, "CHEVROLET", "AVEO", 2005, none, none, none, []⟩], false⟩ "un auto"
    (by decide) (by decide)
    (fun ql choices mk s h => by cases h)


/-- C4 counterexample: two surviving candidates, both with zero linked
batteries — their battery-id sets are identical (both empty) and each has zero
batteries, yet the resolver returns the distinct `not_found` ("vehicle found,
no batteries registered"), not a clarification and not a merged success. -/
theorem c4_counterexample :
    (find_batteries_for_vehicle
        ⟨fun _ => some ⟨some "FORD", some "fiesta", none, none⟩, fun _ _ => none, []⟩
        ⟨[⟨1, "FORD", "FIESTA POWER", 2000, some 2005, none, none, []⟩,
          ⟨2, "FORD", "FIESTA MOVE", 2006, some 2010, none, none, []⟩], false⟩
        "ford fiesta").1 = Result.notFound noBatteriesMsg ∧
    isClarification (find_batteries_for_vehicle
        ⟨fun _ => some ⟨some "FORD", some "fiesta", none, none⟩, fun _ _ => none, []⟩
        ⟨[⟨1, "FORD", "FIESTA POWER", 2000, some 2005, none, none, []⟩,
          ⟨2, "FORD", "FIESTA MOVE", 2006, some 2010, none, none, []⟩], false⟩
        "ford fiesta").1 = false ∧
    isSuccess (find_batteries_for_vehicle
        ⟨fun _ => some ⟨some "FORD", some "fiesta", none, none⟩, fun _ _ => none, []⟩
        ⟨[⟨1, "FORD", "FIESTA POWER", 2000, some 2005, none, none, []⟩,
          ⟨2, "FORD", "FIESTA MOVE", 2006, some 2010, none, none, []⟩], false⟩
        "ford fiesta").1 = false := by
  exact ⟨by decide, by decide, by decide⟩

/-- C4 (corrected): among multiple surviving candidates (with the table's
primary keys distinct), the refetched group drives a three-way branch: if no
candidate has any linked battery the result is the distinct `not_found`; if
the first candidate's battery-id set is non-empty and every candidate's set
equals it, the result is the merged success; if the sets differ, or the first
candidate's set is empty while some candidate has batteries, the result is
`clarification_needed` with one rendered option per candidate, deduplicated by
rendered string keeping first occurrences. -/
theorem c4_merge_or_clarify (db : List Fitment) (g : Fitment) (rest : List Fitment)
    (hnd : (db.map (·.fitment_id)).Nodup)
    (hsub : List.Sublist (g :: rest) db) :
    ((∀ f ∈ g :: rest, f.compatible_battery_products = []) →
      handleMultiple db (g :: rest) = Result.notFound noBatteriesMsg) ∧
    ((batteryIdSet g ≠ ∅ ∧ ∀ f ∈ g :: rest, batteryIdSet f = batteryIdSet g) →
      handleMultiple db (g :: rest) = formatMergedSuccess g rest) ∧
    (((batteryIdSet g ≠ ∅ ∧ ∃ f ∈ g :: rest, batteryIdSet f ≠ batteryIdSet g) ∨
      (batteryIdSet g = ∅ ∧ ∃ f ∈ g :: rest, f.compatible_battery_products ≠ [])) →
      handleMultiple db (g :: rest) =
        Result.clarificationNeeded clarificationMsg
          (dedupByKey id ((g :: rest).map renderOption))) := by
  have hre : refetchByIds db (g :: rest) = g :: rest := refetchByIds_eq hnd hsub
  have hempty_set : ∀ f : Fitment, f.compatible_battery_products = [] → batteryIdSet f = ∅ := by
    intro f hf
    unfold batteryIdSet
    rw [hf]
    rfl
  have hset_empty : ∀ f : Fitment, batteryIdSet f = ∅ → f.compatible_battery_products = [] := by
    intro f hf
    unfold batteryIdSet at hf
    cases hb : f.compatible_battery_products with
    | nil => rfl
    | cons b bs =>
      exfalso
      rw [hb] at hf
      have : b.id ∈ ((b :: bs).map (fun x => x.id)).toFinset := by simp
      rw [hf] at this
      cases this
  refine ⟨?_, ?_, ?_⟩
  · intro hall
    unfold handleMultiple
    rw [hre]
    dsimp only
    rw [if_pos ?_]
    apply List.all_eq_true.mpr
    intro f hf
    rw [List.isEmpty_iff]
    exact hall f hf
  · rintro ⟨hne, hall⟩
    unfold handleMultiple
    rw [hre]
    dsimp only
    rw [if_neg ?_, if_neg hne, if_pos ?_]
    · apply List.all_eq_true.mpr
      intro f hf
      exact decide_eq_true (hall f (List.mem_cons_of_mem g hf))
    · intro hcontra
      have hg := List.all_eq_true.mp hcontra g (List.mem_cons_self g rest)
      rw [List.isEmpty_iff] at hg
      exact hne (hempty_set g hg)
  · intro hcase
    unfold handleMultiple
    rw [hre]
    dsimp only
    rcases hcase with ⟨hne, f, hf, hdiff⟩ | ⟨hempty, f, hf, hfne⟩
    · rw [if_neg ?_, if_neg hne, if_neg ?_]
      · rfl
      · intro hcontra
        have hfrest : f ∈ rest := by
          rcases List.mem_cons.mp hf with hEq | hmem
          · exact absurd (hEq ▸ rfl) hdiff
          · exact hmem
        have := List.all_eq_true.mp hcontra f hfrest
        exact hdiff (of_decide_eq_true this)
      · intro hcontra
        have hg := List.all_eq_true.mp hcontra g (List.mem_cons_self g rest)
        rw [List.isEmpty_iff] at hg
        exact hne (hempty_set g hg)
    · rw [if_neg ?_, if_pos hempty]
      · rfl
      · intro hcontra
        have hfE := List.all_eq_true.mp hcontra f hf
        rw [List.isEmpty_iff] at hfE
        exact hfne hfE

/-- Concrete data for the C4 witness: two fitments sharing one battery. -/
def c4g : Fitment :=
  ⟨1, "FORD", "FIESTA POWER", 2000, some 2005, none, none,
    [⟨"b1", "FULGOR", "NS40", none, none, none⟩]⟩

/-- Second fitment of the C4 witness group. -/
def c4h : Fitment :=
  ⟨2, "FORD", "FIESTA MOVE", 2006, some 2010, none, none,
    [⟨"b1", "FULGOR", "NS40", none, none, none⟩]⟩

/-- C4 witness: two candidates sharing the same single linked battery; the
merge branch applies (the other branches hold vacuously at this input). -/
theorem c4_witness :
    ((∀ f ∈ c4g :: [c4h], f.compatible_battery_products = []) →
      handleMultiple [c4g, c4h] (c4g :: [c4h]) = Result.notFound noBatteriesMsg) ∧
    ((batteryIdSet c4g ≠ ∅ ∧ ∀ f ∈ c4g :: [c4h], batteryIdSet f = batteryIdSet c4g) →
      handleMultiple [c4g, c4h] (c4g :: [c4h]) = formatMergedSuccess c4g [c4h]) ∧
    (((batteryIdSet c4g ≠ ∅ ∧ ∃ f ∈ c4g :: [c4h], batteryIdSet f ≠ batteryIdSet c4g) ∨
      (batteryIdSet c4g = ∅ ∧ ∃ f ∈ c4g :: [c4h], f.compatible_battery_products ≠ [])) →
      handleMultiple [c4g, c4h] (c4g :: [c4h]) =
        Result.clarificationNeeded clarificationMsg
          (dedupByKey id ((c4g :: [c4h]).map renderOption))) :=
  c4_merge_or_clarify [c4g, c4h] c4g [c4h] (by decide) (List.Sublist.refl _)

/-- C3 (confirmed): with the discount flag set and a positive discount
fraction, the discount is half-up-rounded from the ORIGINAL price, the
effective price is the original minus that discount, the initial payment is
half-up-rounded from the DISCOUNTED price, and the installment divides the
post-initial remainder. Every plan field is expressed by these formulas. -/
theorem c3_financing_order (price f d : ℚ) (n : Int) (lvl : String)
    (_hp : 0 < price) (hd : 0 < d) (hn : 0 < n) :
    (get_cashea_financing_options ⟨[⟨"Cashea", lvl, f, n, some d⟩], false⟩
        (PriceInput.finite price) lvl true).1
      = FinResult.success (PriceInput.finite price)
        { level := lvl
          initial_payment := roundHalfUp2 ((price - roundHalfUp2 (price * d)) * f)
          installments_count := n
          installment_amount := roundHalfUp2
            (((price - roundHalfUp2 (price * d))
              - roundHalfUp2 ((price - roundHalfUp2 (price * d)) * f)) / (n : ℚ))
          total_final_price := roundHalfUp2 (price - roundHalfUp2 (price * d))
          discount_applied_percent := d * 100
          total_discount_amount := roundHalfUp2 (price * d) } := by
  have hrule : ([⟨"Cashea", lvl, f, n, some d⟩] : List FinancingRule).find?
      (fun r => r.provider == "Cashea" && r.level_name == lvl)
      = some ⟨"Cashea", lvl, f, n, some d⟩ := by
    simp [List.find?]
  have htb : casheaTryBody ⟨[⟨"Cashea", lvl, f, n, some d⟩], false⟩
      (PriceInput.finite price) lvl true
      = Except.ok (FinResult.success (PriceInput.finite price)
        { level := lvl
          initial_payment := roundHalfUp2 ((price - roundHalfUp2 (price * d)) * f)
          installments_count := n
          installment_amount := roundHalfUp2
            (((price - roundHalfUp2 (price * d))
              - roundHalfUp2 ((price - roundHalfUp2 (price * d)) * f)) / (n : ℚ))
          total_final_price := roundHalfUp2 (price - roundHalfUp2 (price * d))
          discount_applied_percent := d * 100
          total_discount_amount := roundHalfUp2 (price * d) }) := by
    unfold casheaTryBody
    rw [if_neg (by simp)]
    rw [hrule]
    dsimp only
    have hud : (true && decide (0 < d)) = true := by simp [hd]
    rw [hud]
    rw [if_pos rfl, if_pos rfl, if_pos hn]
    simp only [Option.getD_some]
  unfold get_cashea_financing_options
  rw [htb]

/-- C3 witness: the reference numbers — price 100.00, initial fraction 0.30,
discount fraction 0.10, 3 installments: discount 10.00, effective price 90.00,
initial payment 27.00, installment 21.00. -/
theorem c3_witness :
    (get_cashea_financing_options
        ⟨[⟨"Cashea", "Nivel 1", 3/10, 3, some (1/10)⟩], false⟩
        (PriceInput.finite 100) "Nivel 1" true).1
      = FinResult.success (PriceInput.finite 100)
        { level := "Nivel 1"
          initial_payment := 27
          installments_count := 3
          installment_amount := 21
          total_final_price := 90
          discount_applied_percent := 10
          total_discount_amount := 10 } := by
  have h := c3_financing_order 100 (3/10) (1/10) 3 "Nivel 1"
    (by norm_num) (by norm_num) (by norm_num)
  rw [h]
  have e1 : roundHalfUp2 ((100 : ℚ) * (1/10)) = 10 := by
    rw [roundHalfUp2, if_pos (by norm_num)]
    norm_num
  rw [e1]
  have e2 : ((100 : ℚ) - 10) = 90 := by norm_num
  rw [e2]
  have e3 : roundHalfUp2 ((90 : ℚ) * (3/10)) = 27 := by
    rw [roundHalfUp2, if_pos (by norm_num)]
    norm_num
  rw [e3]
  have e4 : ((90 : ℚ) - 27) = 63 := by norm_num
  rw [e4]
  have e5 : roundHalfUp2 ((63 : ℚ) / ((3 : Int) : ℚ)) = 21 := by
    rw [show (((3 : Int)) : ℚ) = 3 by norm_num]
    rw [roundHalfUp2, if_pos (by norm_num)]
    norm_num
  rw [e5]
  have e6 : roundHalfUp2 (90 : ℚ) = 90 := by
    rw [roundHalfUp2, if_pos (by norm_num)]
    norm_num
  rw [e6]
  norm_num

/-- C10 (confirmed): the financing calculator is total and read-only — for
every rule store (including a raising rule query), every price (including one
whose Decimal is non-finite, where quantize raises) and every tier name and
flag, the call returns either the success dictionary or the error dictionary;
its trace is exactly the single read of the financing rule, so no session
write ever happens; a repository failure and the non-finite arithmetic failure
are both caught and become error dictionaries. -/
theorem c10_financing_totality (repo : FinRepo) (price : PriceInput) (lvl : String)
    (flag : Bool) :
    ((∃ msg, (get_cashea_financing_options repo price lvl flag).1 = FinResult.error msg) ∨
      (∃ pp plan, (get_cashea_financing_options repo price lvl flag).1
        = FinResult.success pp plan)) ∧
    ((get_cashea_financing_options repo price lvl flag).2
      = [RepoOp.queryFinancingRule "Cashea" lvl]) ∧
    (∀ op ∈ (get_cashea_financing_options repo price lvl flag).2, isWriteOp op = false) ∧
    (repo.queryFails = true →
      ∃ msg, (get_cashea_financing_options repo price lvl flag).1 = FinResult.error msg) ∧
    (price = PriceInput.nonfinite →
      ∀ rule, repo.rules.find? (fun r => r.provider == "Cashea" && r.level_name == lvl)
          = some rule →
      ∃ msg, (get_cashea_financing_options repo price lvl flag).1 = FinResult.error msg) := by
  refine ⟨?_, rfl, ?_, ?_, ?_⟩
  · cases htb : casheaTryBody repo price lvl flag with
    | error e =>
      left
      exact ⟨_, by unfold get_cashea_financing_options; rw [htb]⟩
    | ok r =>
      cases r with
      | error msg =>
        left
        exact ⟨msg, by unfold get_cashea_financing_options; rw [htb]⟩
      | success pp plan =>
        right
        exact ⟨pp, plan, by unfold get_cashea_financing_options; rw [htb]⟩
  · intro op hop
    rw [show (get_cashea_financing_options repo price lvl flag).2
        = [RepoOp.queryFinancingRule "Cashea" lvl] from rfl] at hop
    simp only [List.mem_singleton] at hop
    rw [hop]
    rfl
  · intro hfail
    have htb : casheaTryBody repo price lvl flag
        = Except.error "database error during rule query" := by
      unfold casheaTryBody
      rw [if_pos hfail]
    exact ⟨_, by unfold get_cashea_financing_options; rw [htb]⟩
  · intro hpf rule hrule
    subst hpf
    by_cases hqf : repo.queryFails = true
    · have htb : casheaTryBody repo PriceInput.nonfinite lvl flag
          = Except.error "database error during rule query" := by
        unfold casheaTryBody
        rw [if_pos hqf]
      exact ⟨_, by unfold get_cashea_financing_options; rw [htb]⟩
    · have htb : casheaTryBody repo PriceInput.nonfinite lvl flag
          = Except.error "InvalidOperation: quantize of non-finite Decimal" := by
        unfold casheaTryBody
        rw [if_neg hqf, hrule]
      exact ⟨_, by unfold get_cashea_financing_options; rw [htb]⟩

/-- C10 witness: a missing-rule store with a raising query and a non-finite
price still yields an error dictionary, with the single read-only trace. -/
theorem c10_witness :
    ((∃ msg, (get_cashea_financing_options ⟨[], true⟩ PriceInput.nonfinite "Nivel 1" true).1
        = FinResult.error msg) ∨
      (∃ pp plan, (get_cashea_financing_options ⟨[], true⟩ PriceInput.nonfinite "Nivel 1" true).1
        = FinResult.success pp plan)) ∧
    ((get_cashea_financing_options ⟨[], true⟩ PriceInput.nonfinite "Nivel 1" true).2
      = [RepoOp.queryFinancingRule "Cashea" "Nivel 1"]) ∧
    (∀ op ∈ (get_cashea_financing_options ⟨[], true⟩ PriceInput.nonfinite "Nivel 1" true).2,
      isWriteOp op = false) ∧
    (true = true →
      ∃ msg, (get_cashea_financing_options ⟨[], true⟩ PriceInput.nonfinite "Nivel 1" true).1
        = FinResult.error msg) ∧
    (PriceInput.nonfinite = PriceInput.nonfinite →
      ∀ rule, ([] : List FinancingRule).find?
          (fun r => r.provider == "Cashea" && r.level_name == "Nivel 1") = some rule →
      ∃ msg, (get_cashea_financing_options ⟨[], true⟩ PriceInput.nonfinite "Nivel 1" true).1
        = FinResult.error msg) :=
  c10_financing_totality ⟨[], true⟩ PriceInput.nonfinite "Nivel 1" true

end Fulgor
